import Mathlib

/-!
Verification of the commiTUI composer state machine.

Shallow embedding of the repository's Rust sources:
  * `src/state.rs`      -> `Step`, `AppState`
  * `src/config.rs`     -> `Config` (field shapes as consumed by `tui.rs` /
                           `validation.rs`, i.e. optional fields with the
                           defaults of `config.rs`), `default_types`,
                           `default_scopes`
  * `src/validation.rs` -> `validate_subject`
  * `src/tui.rs`        -> `is_scope_selectable`, `next_selectable_scope`,
                           the event handler of `run_tui` (`tuiStep`), the
                           body-buffer initialisation (`bodyInit`), the final
                           message assembly (`assembleMessage`), the preview
                           rendering text (`fullPreview`), and the driver loop
                           (`runTui`).

Rust `String::len` is the UTF-8 byte length, embedded as
`String.utf8ByteSize`.  A Rust index-out-of-bounds panic is embedded as
`none` / `TRes.oob`.  Rust `char::is_uppercase` and `str::trim` are embedded
with Lean's `Char.isUpper` and `String.trim` (they agree on the ASCII inputs
exercised here).
-/

namespace CommiTUI

/-- Rust `str::starts_with(pat)`: `pat`'s characters are a prefix of `s`'s
(structurally recursive so that concrete instances evaluate in the kernel). -/
def strStartsWith (s pat : String) : Bool :=
  pat.data.isPrefixOf s.data

/-- Rust `str::ends_with(pat)`: `pat`'s characters are a suffix of `s`'s. -/
def strEndsWith (s pat : String) : Bool :=
  pat.data.isSuffixOf s.data

/-- Rust `str::trim`: strip leading and trailing whitespace (the inputs
exercised here contain only ASCII whitespace, where Rust and Lean agree). -/
def strTrim (s : String) : String :=
  String.mk (((s.data.dropWhile Char.isWhitespace).reverse.dropWhile Char.isWhitespace).reverse)

/-- The net effect of Rust `String::pop`: drop the last character. -/
def strPop (s : String) : String :=
  String.mk s.data.dropLast

/-- The `Step` enum of `src/state.rs`. -/
inductive Step where
  | type
  | scope
  | subject
  | body
  | breaking
  | preview
deriving DecidableEq

/-- The `AppState` struct of `src/state.rs` (field order preserved). -/
structure AppState where
  step : Step
  selected_type : Nat
  chosen_type : Option String
  selected_scope : Nat
  custom_scope : String
  focus_input : Bool
  chosen_scope : Option String
  subject : String
  body : String
  body_lines : List String
  in_body : Bool
  breaking : String
  issues : String
  focus_issues : Bool
deriving DecidableEq

/-- The `Config` struct, with the optional-field shape that `tui.rs`
(`config.types.as_ref()`, `config.scopes.as_ref()`) and `validation.rs`
(`config.subject_max_length.unwrap_or_else(..)`) consume. -/
structure Config where
  types : Option (List String)
  scopes : Option (List String)
  subject_max_length : Option Nat
  subject_start_lowercase : Option Bool
  subject_no_ending_period : Option Bool
deriving DecidableEq

/-- `default_subject_max_length` of `src/config.rs`. -/
def default_subject_max_length : Nat := 72

/-- `default_subject_start_lowercase` of `src/config.rs`. -/
def default_subject_start_lowercase : Bool := true

/-- `default_subject_no_ending_period` of `src/config.rs`. -/
def default_subject_no_ending_period : Bool := true

/-- `default_types` of `src/config.rs`. -/
def default_types : List String :=
  ["feat", "fix", "docs", "style", "refactor",
   "perf", "test", "build", "ci", "chore", "revert"]

/-- `default_scopes` of `src/config.rs` (entry 10 is the separator). -/
def default_scopes : List String :=
  ["no scope",
   "core", "api", "ui", "auth", "db",
   "test", "build", "deps", "ci",
   "────────────",
   "config", "infra", "release", "chore", "perf",
   "style", "lint", "i18n", "analytics", "security",
   "logging", "devops", "deploy", "assets", "mock", "example"]

/-- The fully-defaulted configuration (what `Config::load` yields with no
config files present). -/
def cfgDefault : Config :=
  { types := some default_types
    scopes := some default_scopes
    subject_max_length := some 72
    subject_start_lowercase := some true
    subject_no_ending_period := some true }

/-- The message `format!("Subject should be {} characters or less (currently {}).", ..)`
of `src/validation.rs`. -/
def tooLongMsg (max_length actual : Nat) : String :=
  "Subject should be " ++ toString max_length ++
    " characters or less (currently " ++ toString actual ++ ")."

/-- `validate_subject` of `src/validation.rs`.  `subject.len()` is the UTF-8
byte length. -/
def validate_subject (subject : String) (config : Config) : Option String :=
  let max_length := config.subject_max_length.getD default_subject_max_length
  let start_lowercase := config.subject_start_lowercase.getD default_subject_start_lowercase
  let no_ending_period := config.subject_no_ending_period.getD default_subject_no_ending_period
  if strTrim subject = "" then
    some "Subject must not be empty."
  else if subject.utf8ByteSize > max_length then
    some (tooLongMsg max_length subject.utf8ByteSize)
  else if no_ending_period && strEndsWith subject "." then
    some "Subject should not end with a period."
  else if start_lowercase && ((subject.data.head?.map Char.isUpper).getD false) then
    some "Subject should start with a lowercase letter."
  else
    none

/-- `is_scope_selectable` of `src/tui.rs`.  The Rust body indexes
`&scopes_slice[idx]`, which panics out of bounds: `none` models that panic. -/
def is_scope_selectable (scopes_slice : List String) (idx : Nat) : Option Bool :=
  (scopes_slice.get? idx).map (fun s => !(strStartsWith s "─"))

/-- The `dir > 0` walk of `next_selectable_scope`'s loop, recursing over the
suffix of entries strictly above `idx` (`l = scopes_slice.drop (idx + 1)`,
so the head of `l` is the loop's `scopes_slice[new_idx]` with
`new_idx = idx + 1`; `l = []` is the loop's `idx + 1 >= scopes_slice.len()`
early return).  In this direction every access is in bounds, hence no
`Option`. -/
def nextScopeDown (idx : Nat) : List String → Nat
  | [] => idx
  | s :: rest => if !(strStartsWith s "─") then idx + 1 else nextScopeDown (idx + 1) rest

/-- The `dir <= 0` walk of `next_selectable_scope`'s loop (`idx = 0` is the
early return; otherwise the loop inspects `new_idx = idx - 1`, where the
selectability check can go out of bounds when `idx` starts above the array:
`none` models that panic). -/
def nextScopeUp (scopes_slice : List String) : Nat → Option Nat
  | 0 => some 0
  | idx + 1 =>
    match is_scope_selectable scopes_slice idx with
    | none => none
    | some true => some idx
    | some false => nextScopeUp scopes_slice idx

/-- `next_selectable_scope` of `src/tui.rs`, split by direction into the two
structurally recursive walks above. -/
def next_selectable_scope (scopes_slice : List String) (idx : Nat) (dir : Int) : Option Nat :=
  if dir > 0 then some (nextScopeDown idx (scopes_slice.drop (idx + 1)))
  else nextScopeUp scopes_slice idx

/-- Entry `j` of the scope list exists and is not a separator (the property
`is_scope_selectable` decides when `j` is in bounds). -/
def Selectable (scopes_slice : List String) (j : Nat) : Prop :=
  is_scope_selectable scopes_slice j = some true

instance (scopes_slice : List String) (j : Nat) : Decidable (Selectable scopes_slice j) := by
  unfold Selectable
  infer_instance

/-- `scopes_vec.iter().position(p)` as used by the back-navigation handlers of
`src/tui.rs` (index of the first entry satisfying the predicate). -/
def position (p : String → Bool) : List String → Option Nat
  | [] => none
  | a :: l => if p a then some 0 else (position p l).map (fun n => n + 1)

/-- The body-buffer initialisation at the bottom of `run_tui`'s loop
(`src/tui.rs` lines 594-602): on (re-)entering the Body step, clear the
current line once and mark `in_body`; off the Body step, clear `in_body`. -/
def bodyInit (state : AppState) : AppState :=
  let s1 :=
    if state.step = Step.body ∧ state.in_body = false then
      { state with body := "", in_body := true, focus_input := true }
    else state
  if s1.step ≠ Step.body then { s1 with in_body := false } else s1

/-- The abstract key events `run_tui` consumes: the arrow/control keys it
matches on, plain characters, and the two global quit chords. -/
inductive KeyEvent where
  | up
  | down
  | enter
  | tab
  | backspace
  | left
  | esc
  | ctrlC
  | char (c : Char)
deriving DecidableEq

/-- Result of one iteration of `run_tui`'s event loop: continue with a new
state, `break` out of the loop carrying the state (both the quit hotkeys and
the Preview confirmation do this), or die on an index-out-of-bounds panic. -/
inductive TRes where
  | cont (s : AppState)
  | exit (s : AppState)
  | oob
deriving DecidableEq

/-- One iteration of the event-handling `match` of `run_tui`
(`src/tui.rs` lines 326-602), including the trailing body-buffer
initialisation on every non-`break` path. -/
def tuiStep (config : Config) (state : AppState) (key : KeyEvent) : TRes :=
  -- Global quit hotkeys (Esc or Ctrl+C) always work
  if key = KeyEvent.ctrlC ∨ key = KeyEvent.esc then TRes.exit state
  else
    match state.step with
    | Step.type =>
      -- Only a plain 'q' quits here
      if key = KeyEvent.char 'q' then TRes.exit state
      else
        match key with
        | KeyEvent.down =>
          let types_len := (config.types.getD []).length
          TRes.cont (bodyInit { state with
            selected_type := min (state.selected_type + 1) (types_len - 1) })
        | KeyEvent.up =>
          TRes.cont (bodyInit { state with selected_type := state.selected_type - 1 })
        | KeyEvent.enter =>
          match config.types with
          | some types_vec =>
            match types_vec.get? state.selected_type with
            | none => TRes.oob
            | some ty =>
              TRes.cont (bodyInit { state with
                chosen_type := some ty, step := Step.scope, focus_input := false })
          | none =>
            TRes.cont (bodyInit { state with step := Step.scope, focus_input := false })
        | _ => TRes.cont (bodyInit state)
    | Step.scope =>
      let scopes_slice := config.scopes.getD []
      if state.focus_input then
        -- Custom scope input focused
        match key with
        | KeyEvent.tab => TRes.cont (bodyInit { state with focus_input := false })
        | KeyEvent.enter =>
          let chosen :=
            if strTrim state.custom_scope ≠ "" then some (strTrim state.custom_scope) else none
          TRes.cont (bodyInit { state with
            chosen_scope := chosen, step := Step.subject, focus_input := true })
        | KeyEvent.char c =>
          TRes.cont (bodyInit { state with custom_scope := state.custom_scope.push c })
        | KeyEvent.backspace =>
          TRes.cont (bodyInit { state with custom_scope := strPop state.custom_scope })
        | _ => TRes.cont (bodyInit state)
      else
        -- Scope list focused; only a plain 'q' quits here
        if key = KeyEvent.char 'q' then TRes.exit state
        else
          match key with
          | KeyEvent.tab => TRes.cont (bodyInit { state with focus_input := true })
          | KeyEvent.down =>
            match next_selectable_scope scopes_slice state.selected_scope 1 with
            | none => TRes.oob
            | some i => TRes.cont (bodyInit { state with selected_scope := i })
          | KeyEvent.up =>
            match next_selectable_scope scopes_slice state.selected_scope (-1) with
            | none => TRes.oob
            | some i => TRes.cont (bodyInit { state with selected_scope := i })
          | KeyEvent.enter =>
            match is_scope_selectable scopes_slice state.selected_scope with
            | none => TRes.oob
            | some false => TRes.cont (bodyInit state)
            | some true =>
              if state.selected_scope = 0 then
                TRes.cont (bodyInit { state with
                  chosen_scope := none, step := Step.subject, focus_input := true })
              else
                match scopes_slice.get? state.selected_scope with
                | none => TRes.oob
                | some s =>
                  TRes.cont (bodyInit { state with
                    chosen_scope := some s, step := Step.subject, focus_input := true })
          | KeyEvent.char 'b' | KeyEvent.left =>
            TRes.cont (bodyInit { state with
              step := Step.type,
              selected_type :=
                (position (fun t => some t == state.chosen_type)
                  (config.types.getD [])).getD 0 })
          | _ => TRes.cont (bodyInit state)
    | Step.subject =>
      if state.focus_input then
        -- Subject input focused
        let validation_msg := validate_subject state.subject config
        match key with
        | KeyEvent.tab => TRes.cont (bodyInit { state with focus_input := false })
        | KeyEvent.enter =>
          if validation_msg = none then
            TRes.cont (bodyInit { state with
              step := Step.body, focus_input := true, in_body := false })
          else TRes.cont (bodyInit state)
        | KeyEvent.char c =>
          TRes.cont (bodyInit { state with subject := state.subject.push c })
        | KeyEvent.backspace =>
          TRes.cont (bodyInit { state with subject := strPop state.subject })
        | _ => TRes.cont (bodyInit state)
      else
        -- Navigation mode for subject
        match key with
        | KeyEvent.tab => TRes.cont (bodyInit { state with focus_input := true })
        | KeyEvent.char 'b' | KeyEvent.left =>
          let scopes_vec := config.scopes.getD []
          TRes.cont (bodyInit { state with
            step := Step.scope,
            focus_input := state.chosen_scope.isSome &&
              !(scopes_vec.contains (state.chosen_scope.getD "")),
            selected_scope :=
              (position (fun s => some s == state.chosen_scope) scopes_vec).getD 0,
            custom_scope := state.chosen_scope.getD "" })
        | KeyEvent.enter =>
          if validate_subject state.subject config = none then
            TRes.cont (bodyInit { state with
              step := Step.body, focus_input := true, in_body := false })
          else TRes.cont (bodyInit state)
        | _ => TRes.cont (bodyInit state)
    | Step.body =>
      if state.focus_input then
        -- Body input focused
        match key with
        | KeyEvent.tab => TRes.cont (bodyInit { state with focus_input := false })
        | KeyEvent.enter =>
          if state.body = "" then
            TRes.cont (bodyInit { state with step := Step.breaking, focus_input := true })
          else
            TRes.cont (bodyInit { state with
              body_lines := state.body_lines ++ [state.body], body := "" })
        | KeyEvent.char c =>
          TRes.cont (bodyInit { state with body := state.body.push c })
        | KeyEvent.backspace =>
          TRes.cont (bodyInit { state with body := strPop state.body })
        | _ => TRes.cont (bodyInit state)
      else
        -- Navigation mode for body
        match key with
        | KeyEvent.tab => TRes.cont (bodyInit { state with focus_input := true })
        | KeyEvent.char 'b' | KeyEvent.left =>
          TRes.cont (bodyInit { state with step := Step.subject, focus_input := true })
        | KeyEvent.enter =>
          TRes.cont (bodyInit { state with step := Step.breaking, focus_input := true })
        | _ => TRes.cont (bodyInit state)
    | Step.breaking =>
      if state.focus_input then
        -- Breaking changes input focused
        match key with
        | KeyEvent.tab => TRes.cont (bodyInit { state with focus_input := false })
        | KeyEvent.enter =>
          TRes.cont (bodyInit { state with step := Step.preview, focus_issues := false })
        | KeyEvent.char c =>
          TRes.cont (bodyInit { state with breaking := state.breaking.push c })
        | KeyEvent.backspace =>
          TRes.cont (bodyInit { state with breaking := strPop state.breaking })
        | _ => TRes.cont (bodyInit state)
      else
        -- Navigation mode for breaking
        match key with
        | KeyEvent.tab => TRes.cont (bodyInit { state with focus_input := true })
        | KeyEvent.char 'b' | KeyEvent.left =>
          TRes.cont (bodyInit { state with step := Step.body, focus_input := true })
        | KeyEvent.enter =>
          TRes.cont (bodyInit { state with step := Step.preview, focus_issues := false })
        | _ => TRes.cont (bodyInit state)
    | Step.preview =>
      if state.focus_issues then
        -- Issues input focused.  In the Rust source the `Char(c)` arm
        -- precedes the `Char('b') | Left` arm, so 'b' is captured as text
        -- and only Left reaches the back branch.
        match key with
        | KeyEvent.tab => TRes.cont (bodyInit { state with focus_issues := false })
        | KeyEvent.enter => TRes.exit state
        | KeyEvent.char c =>
          TRes.cont (bodyInit { state with issues := state.issues.push c })
        | KeyEvent.backspace =>
          TRes.cont (bodyInit { state with issues := strPop state.issues })
        | KeyEvent.left =>
          TRes.cont (bodyInit { state with
            focus_issues := false, step := Step.breaking, focus_input := true })
        | _ => TRes.cont (bodyInit state)
      else
        -- Preview navigation
        match key with
        | KeyEvent.tab => TRes.cont (bodyInit { state with focus_issues := true })
        | KeyEvent.char 'y' | KeyEvent.enter => TRes.exit state
        | KeyEvent.char 'b' | KeyEvent.left =>
          TRes.cont (bodyInit { state with step := Step.breaking, focus_input := true })
        | _ => TRes.cont (bodyInit state)

/-- The initial `AppState` literal of `run_tui` (`src/tui.rs` lines 57-77). -/
def initState : AppState :=
  { step := Step.type
    selected_type := 0
    chosen_type := none
    selected_scope := 0
    custom_scope := ""
    focus_input := false
    chosen_scope := none
    subject := ""
    body := ""
    body_lines := []
    in_body := false
    breaking := ""
    issues := ""
    focus_issues := false }

/-- The commit-message assembly after the loop of `run_tui`
(`src/tui.rs` lines 610-674), byte for byte. -/
def assembleMessage (state : AppState) : String :=
  -- Build the commit message string to return
  let result : String :=
    match state.chosen_type with
    | none => ""
    | some ty =>
      if state.chosen_scope = none ∨ state.chosen_scope.getD "" = "" then
        ty ++ ": " ++ state.subject
      else
        ty ++ "(" ++ state.chosen_scope.getD "" ++ "): " ++ state.subject
  -- Append body if not empty
  let result :=
    if state.body_lines ≠ [] ∨ state.body ≠ "" then
      let result := if result ≠ "" ∧ ¬ strEndsWith result "\n" then result ++ "\n" else result
      let result := if ¬ strEndsWith result "\n\n" then result ++ "\n\n" else result
      let result := result ++ String.intercalate "\n" state.body_lines
      if state.body ≠ "" then
        (if state.body_lines ≠ [] then result ++ "\n" else result) ++ state.body
      else result
    else result
  -- Append footers (breaking changes, issues)
  let has_previous_content := strTrim result ≠ ""
  let result :=
    if strTrim state.breaking ≠ "" then
      (if has_previous_content then
        (if ¬ strEndsWith result "\n\n" then result ++ "\n\n" else result)
      else
        (if ¬ strEndsWith result "\n\n" then result ++ "\n\n" else result))
        ++ "BREAKING CHANGE: " ++ strTrim state.breaking
    else result
  let result :=
    if strTrim state.issues ≠ "" then
      (if result ≠ "" ∧ ¬ strEndsWith result "\n\n" then result ++ "\n\n" else result)
        ++ strTrim state.issues
    else result
  -- Ensure final newline
  if ¬ strEndsWith result "\n" then result ++ "\n" else result

/-- The `full_preview` string rendered on the Preview step
(`src/tui.rs` lines 252-293). -/
def fullPreview (state : AppState) : String :=
  let type_str := state.chosen_type.getD ""
  let scope_str := state.chosen_scope.getD ""
  let preview :=
    if state.chosen_scope = none ∨ scope_str = "" then
      type_str ++ ": " ++ state.subject
    else
      type_str ++ "(" ++ scope_str ++ "): " ++ state.subject
  let full_preview := preview
  let full_preview :=
    if state.body_lines ≠ [] ∨ state.body ≠ "" then
      let fp := full_preview ++ "\n\n" ++ String.intercalate "\n" state.body_lines
      if state.body ≠ "" then
        (if state.body_lines ≠ [] then fp ++ "\n" else fp) ++ state.body
      else fp
    else full_preview
  let full_preview :=
    if strTrim state.breaking ≠ "" then
      (if strEndsWith full_preview "\n" ∧ ¬ strEndsWith full_preview "\n\n" then
        full_preview ++ "\n"
      else if full_preview ≠ "" then full_preview ++ "\n\n"
      else full_preview)
        ++ "BREAKING CHANGE: " ++ strTrim state.breaking
    else full_preview
  let full_preview :=
    if strTrim state.issues ≠ "" then
      (if strEndsWith full_preview "\n" ∧ ¬ strEndsWith full_preview "\n\n" then
        full_preview ++ "\n"
      else if full_preview ≠ "" then full_preview ++ "\n\n"
      else full_preview)
        ++ strTrim state.issues
    else full_preview
  full_preview

/-- Outcome of feeding `run_tui` a finite sequence of key events: the loop
`break`s and the assembled message is returned (`Ok(result)` — this is the
single exit path, taken by the quit hotkeys as well as by the Preview
confirmation), an index-out-of-bounds panic occurs, or the events run out
with the wizard still polling. -/
inductive RunOutcome where
  | finished (msg : String)
  | crashed
  | awaiting (s : AppState)
deriving DecidableEq

/-- The driver loop of `run_tui` over a finite event sequence. -/
def runTui (config : Config) : AppState → List KeyEvent → RunOutcome
  | state, [] => RunOutcome.awaiting state
  | state, key :: rest =>
    match tuiStep config state key with
    | TRes.exit s => RunOutcome.finished (assembleMessage s)
    | TRes.oob => RunOutcome.crashed
    | TRes.cont s => runTui config s rest

/-- States the wizard can actually be in: the initial state and everything
the event handler can continue to. -/
inductive Reachable (config : Config) : AppState → Prop
  | init : Reachable config initState
  | step {s s' : AppState} {key : KeyEvent} :
      Reachable config s → tuiStep config s key = TRes.cont s' → Reachable config s'

/-- The final `StepState` of spec Scenario B: type "fix", scope "api",
subject "handle timeout", one committed body line, nothing else. -/
def stScenarioB : AppState :=
  { initState with
    chosen_type := some "fix"
    chosen_scope := some "api"
    subject := "handle timeout"
    body_lines := ["retries added"]
    step := Step.preview }

/-- A configuration whose scopes list is absent (so `run_tui` works on the
empty slice). -/
def cfgNoScopes : Config := { cfgDefault with scopes := none }

/-- 73 bytes of 'x': one byte over the default 72-byte subject limit. -/
def longSubject : String := String.mk (List.replicate 73 'x')

/-- 40 copies of the two-byte character 'é': 40 characters but 80 bytes. -/
def sMultiByte : String := String.mk (List.replicate 40 'é')

/-- 79 'X's and a trailing period: violates the length, period and
lowercase rules at once. -/
def badSubject : String := String.mk (List.replicate 79 'X') ++ "."

/-- A ScopeSelect state in the text sub-mode whose custom text is
whitespace-only. -/
def stC3 : AppState :=
  { initState with step := Step.scope, focus_input := true, custom_scope := "   " }

/-- A ScopeSelect state in the text sub-mode with custom text " api ". -/
def stC3w : AppState :=
  { initState with step := Step.scope, focus_input := true, custom_scope := " api " }

/-- A SubjectInput state whose subject is one byte over the limit. -/
def stC4w : AppState :=
  { initState with step := Step.subject, subject := longSubject }

/-- A SubjectInput navigation-mode state whose chosen scope is the custom
text "no scope" — equal to the sentinel at index 0 of the default list. -/
def stC7 : AppState :=
  { initState with
    step := Step.subject
    focus_input := false
    chosen_type := some "fix"
    chosen_scope := some "no scope"
    subject := "x" }

/-- The state after Back from `stC7`: list sub-mode, cursor at index 0. -/
def stC7back : AppState :=
  { stC7 with
    step := Step.scope
    focus_input := false
    selected_scope := 0
    custom_scope := "no scope" }

/-- The state after confirming from `stC7back`: the scope has become None. -/
def stC7fwd : AppState :=
  { stC7back with chosen_scope := none, step := Step.subject, focus_input := true }

/-- A SubjectInput navigation-mode state whose chosen scope is the list
entry "api". -/
def stC7w : AppState :=
  { initState with
    step := Step.subject
    focus_input := false
    chosen_type := some "feat"
    chosen_scope := some "api"
    subject := "s" }

/-- The state after confirming "feat" on TypeSelect from the initial state. -/
def stC8a : AppState :=
  { initState with chosen_type := some "feat", step := Step.scope, focus_input := false }

/-- The state after then going Back from ScopeSelect: the step is TypeSelect
again but `chosen_type` is still set. -/
def stC8b : AppState := { initState with chosen_type := some "feat" }

/-! ## Shared lemmas -/

lemma Selectable_lt {scopes : List String} {j : Nat} (h : Selectable scopes j) :
    j < scopes.length := by
  unfold Selectable is_scope_selectable at h
  by_contra hc
  rw [List.get?_eq_none.mpr (by omega)] at h
  exact Option.noConfusion h

lemma selectable_of_get? {scopes : List String} {j : Nat} {s : String}
    (hg : scopes.get? j = some s) (hs : strStartsWith s "─" = false) :
    Selectable scopes j := by
  unfold Selectable is_scope_selectable
  rw [hg]
  simp [hs]

lemma not_selectable_of_get? {scopes : List String} {j : Nat} {s : String}
    (hg : scopes.get? j = some s) (hs : strStartsWith s "─" = true) :
    ¬ Selectable scopes j := by
  unfold Selectable is_scope_selectable
  rw [hg]
  simp [hs]

lemma get?_of_drop_cons {scopes : List String} {idx : Nat} {s : String} {rest : List String}
    (h : scopes.drop (idx + 1) = s :: rest) :
    scopes.get? (idx + 1) = some s := by
  have := List.get?_drop scopes (idx + 1) 0
  rw [h] at this
  simpa using this.symm

lemma drop_of_drop_cons {scopes : List String} {idx : Nat} {s : String} {rest : List String}
    (h : scopes.drop (idx + 1) = s :: rest) :
    scopes.drop (idx + 2) = rest := by
  have h2 := List.drop_drop 1 (idx + 1) scopes
  rw [h] at h2
  simpa using h2.symm

lemma lt_of_get?_some {scopes : List String} {j : Nat} {s : String}
    (h : scopes.get? j = some s) : j < scopes.length := by
  by_contra hc
  rw [List.get?_eq_none.mpr (by omega)] at h
  exact Option.noConfusion h

lemma nextScopeDown_no_sel :
    ∀ (l : List String) (scopes : List String) (idx : Nat),
      scopes.drop (idx + 1) = l → idx < scopes.length →
      (∀ j, idx < j → ¬ Selectable scopes j) →
      nextScopeDown idx l = scopes.length - 1 := by
  intro l
  induction l with
  | nil =>
    intro scopes idx hdrop hlt _
    have : scopes.length ≤ idx + 1 := List.drop_eq_nil_iff.mp hdrop
    simp only [nextScopeDown]
    omega
  | cons s rest ih =>
    intro scopes idx hdrop hlt hno
    have hg : scopes.get? (idx + 1) = some s := get?_of_drop_cons hdrop
    simp only [nextScopeDown]
    by_cases hs : strStartsWith s "─" = true
    · rw [if_neg (by simp [hs])]
      exact ih scopes (idx + 1) (drop_of_drop_cons hdrop) (lt_of_get?_some hg)
        (fun j hj => hno j (by omega))
    · exact absurd (selectable_of_get? hg (by simpa using hs))
        (hno (idx + 1) (by omega))

lemma nextScopeDown_found :
    ∀ (l : List String) (scopes : List String) (idx : Nat),
      scopes.drop (idx + 1) = l →
      (∃ j, idx < j ∧ Selectable scopes j) →
      idx < nextScopeDown idx l ∧ Selectable scopes (nextScopeDown idx l) ∧
        ∀ k, idx < k → k < nextScopeDown idx l → ¬ Selectable scopes k := by
  intro l
  induction l with
  | nil =>
    intro scopes idx hdrop hex
    obtain ⟨j, hj, hsel⟩ := hex
    have h1 : scopes.length ≤ idx + 1 := List.drop_eq_nil_iff.mp hdrop
    have h2 := Selectable_lt hsel
    omega
  | cons s rest ih =>
    intro scopes idx hdrop hex
    have hg : scopes.get? (idx + 1) = some s := get?_of_drop_cons hdrop
    simp only [nextScopeDown]
    by_cases hs : strStartsWith s "─" = true
    · have hnotsel : ¬ Selectable scopes (idx + 1) := not_selectable_of_get? hg hs
      rw [if_neg (by simp [hs])]
      have hex2 : ∃ j, idx + 1 < j ∧ Selectable scopes j := by
        obtain ⟨j, hj, hsel⟩ := hex
        refine ⟨j, ?_, hsel⟩
        rcases Nat.lt_or_ge (idx + 1) j with h | h
        · exact h
        · have : j = idx + 1 := by omega
          rw [this] at hsel
          exact absurd hsel hnotsel
      obtain ⟨ha, hb, hc⟩ := ih scopes (idx + 1) (drop_of_drop_cons hdrop) hex2
      refine ⟨by omega, hb, ?_⟩
      intro k hk1 hk2
      rcases Nat.lt_or_ge (idx + 1) k with h | h
      · exact hc k h hk2
      · have : k = idx + 1 := by omega
        rw [this]
        exact hnotsel
    · rw [if_pos (by simp [hs])]
      refine ⟨by omega, selectable_of_get? hg (by simpa using hs), ?_⟩
      intro k hk1 hk2
      omega

lemma nextScopeDown_lt :
    ∀ (l : List String) (scopes : List String) (idx : Nat),
      scopes.drop (idx + 1) = l → idx < scopes.length →
      nextScopeDown idx l < scopes.length := by
  intro l
  induction l with
  | nil =>
    intro scopes idx _ hlt
    simpa [nextScopeDown] using hlt
  | cons s rest ih =>
    intro scopes idx hdrop hlt
    have hg : scopes.get? (idx + 1) = some s := get?_of_drop_cons hdrop
    simp only [nextScopeDown]
    by_cases hs : strStartsWith s "─" = true
    · rw [if_neg (by simp [hs])]
      exact ih scopes (idx + 1) (drop_of_drop_cons hdrop) (lt_of_get?_some hg)
    · rw [if_pos (by simp [hs])]
      exact lt_of_get?_some hg

lemma nextScopeUp_spec :
    ∀ (scopes : List String) (idx : Nat), idx ≤ scopes.length →
      ((∀ j, j < idx → ¬ Selectable scopes j) → nextScopeUp scopes idx = some 0)
      ∧ ((∃ j, j < idx ∧ Selectable scopes j) →
          ∃ r, nextScopeUp scopes idx = some r ∧ r < idx ∧ Selectable scopes r ∧
            ∀ k, r < k → k < idx → ¬ Selectable scopes k) := by
  intro scopes idx
  induction idx with
  | zero =>
    intro _
    refine ⟨fun _ => rfl, fun hex => ?_⟩
    obtain ⟨j, hj, _⟩ := hex
    omega
  | succ k ih =>
    intro hle
    have hk : k < scopes.length := by omega
    obtain ⟨s, hg⟩ : ∃ s, scopes.get? k = some s := by
      cases hgs : scopes.get? k with
      | none => exact absurd (List.get?_eq_none.mp hgs) (by omega)
      | some a => exact ⟨a, rfl⟩
    have hsel_eq : is_scope_selectable scopes k = some (!(strStartsWith s "─")) := by
      unfold is_scope_selectable
      rw [hg]
      rfl
    by_cases hs : strStartsWith s "─" = true
    · have hnot : ¬ Selectable scopes k := not_selectable_of_get? hg hs
      have hred : nextScopeUp scopes (k + 1) = nextScopeUp scopes k := by
        simp only [nextScopeUp, hsel_eq, hs, Bool.not_true]
      obtain ⟨ih1, ih2⟩ := ih (by omega)
      constructor
      · intro hno
        rw [hred]
        exact ih1 (fun j hj => hno j (by omega))
      · intro hex
        have hex2 : ∃ j, j < k ∧ Selectable scopes j := by
          obtain ⟨j, hj, hsel⟩ := hex
          refine ⟨j, ?_, hsel⟩
          rcases Nat.lt_or_ge j k with h | h
          · exact h
          · have : j = k := by omega
            rw [this] at hsel
            exact absurd hsel hnot
        obtain ⟨r, hr1, hr2, hr3, hr4⟩ := ih2 hex2
        refine ⟨r, by rw [hred]; exact hr1, by omega, hr3, ?_⟩
        intro k2 h1 h2
        rcases Nat.lt_or_ge k2 k with h | h
        · exact hr4 k2 h1 h
        · have : k2 = k := by omega
          rw [this]
          exact hnot
    · have hsel : Selectable scopes k := selectable_of_get? hg (by simpa using hs)
      have hred : nextScopeUp scopes (k + 1) = some k := by
        simp only [nextScopeUp, hsel_eq]
        simp [hs]
      constructor
      · intro hno
        exact absurd hsel (hno k (by omega))
      · intro _
        exact ⟨k, hred, by omega, hsel, fun k2 h1 h2 => by omega⟩

lemma position_false :
    ∀ l : List String, position (fun _ => false) l = none := by
  intro l
  induction l with
  | nil => rfl
  | cons a t ih =>
    simp only [position]
    rw [if_neg (by simp), ih]
    rfl

lemma position_mem :
    ∀ (l : List String) (v : String), v ∈ l →
      ∃ j, position (fun x => x == v) l = some j ∧ l[j]? = some v ∧
        (j = 0 ↔ l.head? = some v) := by
  intro l v
  induction l with
  | nil => intro h; exact absurd h (List.not_mem_nil v)
  | cons a t ih =>
    intro hmem
    by_cases hav : a = v
    · refine ⟨0, ?_, ?_, ?_⟩
      · simp only [position]
        rw [if_pos (by simp [hav])]
      · simp [hav]
      · simp [hav]
    · have hmem2 : v ∈ t := by
        rcases List.mem_cons.mp hmem with h | h
        · exact absurd h.symm hav
        · exact h
      obtain ⟨j, hj1, hj2, _⟩ := ih hmem2
      refine ⟨j + 1, ?_, by simpa using hj2, ?_⟩
      · simp only [position]
        rw [if_neg (by simp [hav]), hj1]
        rfl
      · simp [hav]

lemma position_not_mem :
    ∀ (l : List String) (v : String), v ∉ l →
      position (fun x => x == v) l = none := by
  intro l v
  induction l with
  | nil => intro _; rfl
  | cons a t ih =>
    intro hmem
    have hav : a ≠ v := fun h => hmem (h ▸ List.mem_cons_self a t)
    have hmem2 : v ∉ t := fun h => hmem (List.mem_cons_of_mem a h)
    simp only [position]
    rw [if_neg (by simp [hav]), ih hmem2]
    rfl

lemma mem_of_head?_some {l : List String} {a : String} (h : l.head? = some a) : a ∈ l := by
  cases l with
  | nil => exact Option.noConfusion h
  | cons b t =>
    simp only [List.head?_cons, Option.some.injEq] at h
    rw [← h]
    exact List.mem_cons_self b t

lemma validate_subject_ne_none_of_long {s : String} {config : Config}
    (h : s.utf8ByteSize > config.subject_max_length.getD default_subject_max_length) :
    validate_subject s config ≠ none := by
  unfold validate_subject
  split_ifs <;> simp_all

lemma bodyInit_chosen_type (s : AppState) : (bodyInit s).chosen_type = s.chosen_type := by
  simp only [bodyInit]
  split <;> split <;> rfl

lemma bodyInit_step (s : AppState) : (bodyInit s).step = s.step := by
  simp only [bodyInit]
  split <;> split <;> rfl

lemma tuiStep_cont_chosen_type (config : Config) (s s2 : AppState) (key : KeyEvent)
    (h : tuiStep config s key = TRes.cont s2) :
    s2.chosen_type = s.chosen_type ∨ ∃ t, s2.chosen_type = some t := by
  unfold tuiStep at h
  repeat' split at h
  all_goals try dsimp only [] at h
  all_goals try (repeat' split at h)
  all_goals first
    | exact TRes.noConfusion h
    | (injection h with h
       subst h
       rw [bodyInit_chosen_type]
       first
         | exact Or.inl rfl
         | exact Or.inr ⟨_, rfl⟩)

lemma tuiStep_type_cont (config : Config) {l : List String} (htypes : config.types = some l)
    (s s2 : AppState) (key : KeyEvent) (hstep : s.step = Step.type)
    (h : tuiStep config s key = TRes.cont s2) (hstep2 : s2.step ≠ Step.type) :
    ∃ t, s2.chosen_type = some t := by
  unfold tuiStep at h
  simp only [hstep, htypes] at h
  repeat' split at h
  all_goals solve
    | exact TRes.noConfusion h
    | (injection h with h
       subst h
       solve
         | exact ⟨_, rfl⟩
         | (exfalso
            apply hstep2
            rw [bodyInit_step]
            try exact hstep))

/-! ## The claims -/

/-- C1 (code bug): the assembled message is supposed to separate the header
from the body by exactly one blank line (two newline characters); for
Scenario B it should be "fix(api): handle timeout\n\nretries added\n".  The
assembly of `run_tui` (tui.rs lines 622-628) first pushes one newline and
then two more, so it emits two blank lines — while the code's own Preview
rendering of the same state shows exactly one blank line. -/
theorem c1_assembly_inserts_two_blank_lines_code_bug :
    assembleMessage stScenarioB = "fix(api): handle timeout\n\n\nretries added\n"
    ∧ assembleMessage stScenarioB ≠ "fix(api): handle timeout\n\nretries added\n"
    ∧ fullPreview stScenarioB = "fix(api): handle timeout\n\nretries added" := by
  decide

/-- C2 (code bug): Quit is supposed to end the run with no produced message
and without running the assembler.  In `run_tui` the quit hotkeys merely
`break` out of the loop: every exit path — quit included — falls through to
the message assembly, and the function returns `Ok` with the assembled
string.  Quitting immediately at TypeSelect yields the message "\n". -/
theorem c2_quit_still_assembles_message_code_bug :
    (∀ (config : Config) (state : AppState),
      tuiStep config state KeyEvent.esc = TRes.exit state ∧
        tuiStep config state KeyEvent.ctrlC = TRes.exit state)
    ∧ runTui cfgDefault initState [KeyEvent.esc] = RunOutcome.finished "\n" := by
  refine ⟨fun config state => ⟨?_, ?_⟩, by decide⟩
  · unfold tuiStep
    rw [if_pos (Or.inr rfl)]
  · unfold tuiStep
    rw [if_pos (Or.inl rfl)]

/-- C3 counterexample: Confirm in the text sub-mode with whitespace-only
custom text is not a no-op — the step changes to SubjectInput (and
`chosen_scope` is cleared), contradicting the claim that the step remains
ScopeSelect with no state change. -/
theorem c3_empty_scope_confirm_advances_counterexample :
    tuiStep cfgDefault stC3 KeyEvent.enter
      = TRes.cont { stC3 with chosen_scope := none, step := Step.subject, focus_input := true }
    ∧ Step.subject ≠ Step.scope := by
  decide

/-- C3 (amended): in the ScopeSelect text sub-mode, Confirm always advances
to SubjectInput: non-empty trimmed text sets `chosen_scope` to the trimmed
text, while empty or whitespace-only text clears `chosen_scope` to None and
advances all the same. -/
theorem c3_scope_text_confirm_amended (config : Config) (state : AppState)
    (hstep : state.step = Step.scope) (hfocus : state.focus_input = true) :
    tuiStep config state KeyEvent.enter
      = TRes.cont { state with
          chosen_scope :=
            if strTrim state.custom_scope ≠ "" then some (strTrim state.custom_scope) else none,
          step := Step.subject, focus_input := true, in_body := false } := by
  obtain ⟨st, selt, cht, sels, cus, foc, chs, sub, bod, bls, inb, brk, iss, fi⟩ := state
  simp only at hstep hfocus
  subst hstep hfocus
  simp [tuiStep.eq_def, bodyInit]

/-- C3 witness: confirming the custom text " api " advances to SubjectInput
with the trimmed scope "api". -/
theorem c3_scope_text_confirm_amended_witness :
    tuiStep cfgDefault stC3w KeyEvent.enter
      = TRes.cont { stC3w with
          chosen_scope := some "api", step := Step.subject, focus_input := true,
          in_body := false } := by
  rw [c3_scope_text_confirm_amended cfgDefault stC3w rfl rfl]
  decide

/-- C4 (confirmed): on SubjectInput, Confirm is a no-op whenever
`validate_subject` reports a failure — in particular whenever the subject's
byte length exceeds the configured maximum — and advances to BodyInput
(with the body line buffer initialised) exactly when validation passes.
`state.in_body = false` is the loop invariant off the Body step. -/
theorem c4_subject_confirm_validation_gate (config : Config) (state : AppState)
    (hstep : state.step = Step.subject) (hin : state.in_body = false) :
    (validate_subject state.subject config ≠ none →
      tuiStep config state KeyEvent.enter = TRes.cont state)
    ∧ (validate_subject state.subject config = none →
      tuiStep config state KeyEvent.enter
        = TRes.cont { state with
            step := Step.body, body := "", in_body := true, focus_input := true })
    ∧ (state.subject.utf8ByteSize > config.subject_max_length.getD default_subject_max_length →
      tuiStep config state KeyEvent.enter = TRes.cont state) := by
  obtain ⟨st, selt, cht, sels, cus, foc, chs, sub, bod, bls, inb, brk, iss, fi⟩ := state
  simp only at hstep hin
  subst hstep hin
  refine ⟨?_, ?_, ?_⟩
  · intro hv
    simp only at hv
    cases foc <;> simp [tuiStep.eq_def, bodyInit, hv]
  · intro hv
    simp only at hv
    cases foc <;> simp [tuiStep.eq_def, bodyInit, hv]
  · intro h
    simp only at h
    have hv := validate_subject_ne_none_of_long h
    cases foc <;> simp [tuiStep.eq_def, bodyInit, hv]

/-- C4 witness: with a 73-byte subject under the default 72-byte limit,
Confirm leaves the state untouched. -/
theorem c4_subject_confirm_validation_gate_witness :
    validate_subject stC4w.subject cfgDefault ≠ none
    ∧ tuiStep cfgDefault stC4w KeyEvent.enter = TRes.cont stC4w :=
  ⟨by decide, (c4_subject_confirm_validation_gate cfgDefault stC4w rfl rfl).1 (by decide)⟩

/-- C5 (confirmed): `validate_subject` checks empty-subject, too-long,
trailing-period and not-lowercase-start in that fixed order and reports only
the first failure: the empty string fails with the empty-subject message for
every configuration, an over-long subject reports the length message no
matter what the later rules would say, and each later rule fires only when
every earlier check passes. -/
theorem c5_validate_first_failure_order (config : Config) (s : String) :
    (validate_subject "" config = some "Subject must not be empty.")
    ∧ (strTrim s ≠ "" →
        s.utf8ByteSize > config.subject_max_length.getD default_subject_max_length →
        validate_subject s config
          = some (tooLongMsg (config.subject_max_length.getD default_subject_max_length)
              s.utf8ByteSize))
    ∧ (strTrim s ≠ "" →
        s.utf8ByteSize ≤ config.subject_max_length.getD default_subject_max_length →
        ((config.subject_no_ending_period.getD default_subject_no_ending_period)
            && strEndsWith s ".") = true →
        validate_subject s config = some "Subject should not end with a period.")
    ∧ (strTrim s ≠ "" →
        s.utf8ByteSize ≤ config.subject_max_length.getD default_subject_max_length →
        ((config.subject_no_ending_period.getD default_subject_no_ending_period)
            && strEndsWith s ".") = false →
        ((config.subject_start_lowercase.getD default_subject_start_lowercase)
            && ((s.data.head?.map Char.isUpper).getD false)) = true →
        validate_subject s config = some "Subject should start with a lowercase letter.") := by
  refine ⟨?_, ?_, ?_, ?_⟩
  · unfold validate_subject
    rw [show strTrim "" = "" from rfl]
    simp
  · intro h1 h2
    unfold validate_subject
    rw [if_neg h1, if_pos h2]
  · intro h1 h2 h3
    unfold validate_subject
    rw [if_neg h1, if_neg (by omega), if_pos h3]
  · intro h1 h2 h3 h4
    unfold validate_subject
    rw [if_neg h1, if_neg (by omega), if_neg (by simp [h3]), if_pos h4]

/-- C5 witness: a subject violating the length, period and lowercase rules
at once reports only the first violated check (too-long). -/
theorem c5_validate_first_failure_order_witness :
    strTrim badSubject ≠ ""
    ∧ validate_subject badSubject cfgDefault = some (tooLongMsg 72 80) := by
  refine ⟨by decide, ?_⟩
  have h := (c5_validate_first_failure_order cfgDefault badSubject).2.1 (by decide) (by decide)
  rw [h]
  decide

/-- C6 counterexample: starting on the selectable entry 0 of ["a", "─"] and
moving Down, there is no selectable entry below, yet the cursor does not
stay at 0 — it walks onto the separator at index 1 and rests there. -/
theorem c6_cursor_rests_on_separator_counterexample :
    is_scope_selectable ["a", "─"] 0 = some true
    ∧ next_selectable_scope ["a", "─"] 0 1 = some 1
    ∧ is_scope_selectable ["a", "─"] 1 = some false := by
  decide

/-- C6 (amended): Up/Down moves the cursor to the nearest selectable entry
in that direction, skipping runs of separators; but when no selectable
entry exists in that direction the cursor walks through the separator run
to the extreme index (length - 1 going down, 0 going up), which may be a
separator — the position is unchanged only when the cursor already sits at
that bound. -/
theorem c6_updown_nearest_selectable_amended (scopes : List String) (idx : Nat)
    (h : idx < scopes.length) :
    ((∀ j, idx < j → ¬ Selectable scopes j) →
      next_selectable_scope scopes idx 1 = some (scopes.length - 1))
    ∧ ((∃ j, idx < j ∧ Selectable scopes j) →
      ∃ r, next_selectable_scope scopes idx 1 = some r ∧ idx < r ∧ Selectable scopes r ∧
        ∀ k, idx < k → k < r → ¬ Selectable scopes k)
    ∧ ((∀ j, j < idx → ¬ Selectable scopes j) →
      next_selectable_scope scopes idx (-1) = some 0)
    ∧ ((∃ j, j < idx ∧ Selectable scopes j) →
      ∃ r, next_selectable_scope scopes idx (-1) = some r ∧ r < idx ∧ Selectable scopes r ∧
        ∀ k, r < k → k < idx → ¬ Selectable scopes k) := by
  have hdown : next_selectable_scope scopes idx 1
      = some (nextScopeDown idx (scopes.drop (idx + 1))) := by
    unfold next_selectable_scope
    rw [if_pos (by norm_num)]
  have hup : next_selectable_scope scopes idx (-1) = nextScopeUp scopes idx := by
    unfold next_selectable_scope
    rw [if_neg (by norm_num)]
  obtain ⟨hu1, hu2⟩ := nextScopeUp_spec scopes idx (by omega)
  refine ⟨?_, ?_, ?_, ?_⟩
  · intro hno
    rw [hdown, nextScopeDown_no_sel (scopes.drop (idx + 1)) scopes idx rfl h hno]
  · intro hex
    obtain ⟨ha, hb, hc⟩ := nextScopeDown_found (scopes.drop (idx + 1)) scopes idx rfl hex
    exact ⟨nextScopeDown idx (scopes.drop (idx + 1)), hdown, ha, hb, hc⟩
  · intro hno
    rw [hup]
    exact hu1 hno
  · intro hex
    obtain ⟨r, hr1, hr2, hr3, hr4⟩ := hu2 hex
    exact ⟨r, by rw [hup]; exact hr1, hr2, hr3, hr4⟩

/-- C6 witness: on the default scope list, Up from index 0 stays at 0. -/
theorem c6_updown_nearest_selectable_amended_witness :
    next_selectable_scope default_scopes 0 (-1) = some 0 :=
  (c6_updown_nearest_selectable_amended default_scopes 0 (by decide)).2.2.1
    (fun j hj => absurd hj (Nat.not_lt_zero j))

/-- C7 counterexample: with the custom scope "no scope" — equal to the
default list's index-0 sentinel — Back from SubjectInput restores the list
cursor to index 0, and re-confirming turns the scope into None: the round
trip loses the chosen scope. -/
theorem c7_no_scope_roundtrip_counterexample :
    tuiStep cfgDefault stC7 (KeyEvent.char 'b') = TRes.cont stC7back
    ∧ tuiStep cfgDefault stC7back KeyEvent.enter = TRes.cont stC7fwd
    ∧ stC7.chosen_scope = some "no scope"
    ∧ stC7fwd.chosen_scope = none := by
  decide

/-- C7 (amended): for every reachable `chosen_scope` (None, a list entry, or
a trimmed non-empty custom text), Back from SubjectInput followed by an
immediate Confirm preserves `chosen_scope` — except when the chosen scope
equals the entry at index 0 of the scope list (the "no scope" sentinel
position, reachable by typing that entry as custom text), in which case the
round trip yields None. -/
theorem c7_scope_roundtrip_amended (config : Config) (state : AppState)
    (hstep : state.step = Step.subject) (hfocus : state.focus_input = false)
    (hsel0 : Selectable (config.scopes.getD []) 0)
    (hreach : state.chosen_scope = none ∨
      ∃ s, state.chosen_scope = some s ∧
        ((strTrim s = s ∧ s ≠ "") ∨ s ∈ config.scopes.getD [])) :
    ∃ s1 s2, tuiStep config state (KeyEvent.char 'b') = TRes.cont s1 ∧
      tuiStep config s1 KeyEvent.enter = TRes.cont s2 ∧
      s2.chosen_scope =
        (if (config.scopes.getD []).head? = state.chosen_scope ∧ state.chosen_scope ≠ none
         then none else state.chosen_scope) := by
  unfold Selectable at hsel0
  obtain ⟨st, selt, cht, sels, cus, foc, chs, sub, bod, bls, inb, brk, iss, fi⟩ := state
  simp only at hstep hfocus hreach ⊢
  subst hstep hfocus
  rcases hreach with hchs | ⟨s, hchs, hs⟩
  · -- chosen_scope = none: Back focuses the list at index 0, Confirm re-picks "no scope"
    subst hchs
    refine ⟨⟨Step.scope, selt, cht, 0, "", false, none, sub, bod, bls, false, brk, iss, fi⟩,
      ⟨Step.subject, selt, cht, 0, "", true, none, sub, bod, bls, false, brk, iss, fi⟩,
      ?_, ?_, ?_⟩
    · simp [tuiStep.eq_def, bodyInit, position_false]
    · simp [tuiStep.eq_def, bodyInit, hsel0]
    · simp
  · subst hchs
    by_cases hmem : s ∈ config.scopes.getD []
    · -- the chosen scope is a list entry: Back restores the cursor to its first occurrence
      obtain ⟨j, hj1, hj2, hj3⟩ := position_mem (config.scopes.getD []) s hmem
      have hsel_eq : is_scope_selectable (config.scopes.getD []) j
          = some (!(strStartsWith s "─")) := by
        unfold is_scope_selectable
        rw [← List.get?_eq_getElem?] at hj2
        rw [hj2]
        rfl
      have h1 : tuiStep config
          ⟨Step.subject, selt, cht, sels, cus, false, some s, sub, bod, bls, inb, brk, iss, fi⟩
          (KeyEvent.char 'b')
          = TRes.cont
            ⟨Step.scope, selt, cht, j, s, false, some s, sub, bod, bls, false, brk, iss, fi⟩ := by
        simp [tuiStep.eq_def, bodyInit, hj1, hmem]
      by_cases hj0 : j = 0
      · subst hj0
        have hhead : (config.scopes.getD []).head? = some s := hj3.mp rfl
        refine ⟨_, ⟨Step.subject, selt, cht, 0, s, true, none, sub, bod, bls, false, brk, iss, fi⟩,
          h1, ?_, ?_⟩
        · simp [tuiStep.eq_def, bodyInit, hsel0]
        · rw [if_pos ⟨hhead, by simp⟩]
      · have hhead : ¬ (config.scopes.getD []).head? = some s := fun h => hj0 (hj3.mpr h)
        by_cases hsep : strStartsWith s "─" = true
        · -- its first occurrence is a separator (only reachable as custom text): Confirm is a no-op
          refine ⟨_,
            ⟨Step.scope, selt, cht, j, s, false, some s, sub, bod, bls, false, brk, iss, fi⟩,
            h1, ?_, ?_⟩
          · rw [hsep] at hsel_eq
            simp [tuiStep.eq_def, bodyInit, hsel_eq]
          · rw [if_neg (by tauto)]
        · rw [Bool.not_eq_true] at hsep
          rw [hsep] at hsel_eq
          refine ⟨_,
            ⟨Step.subject, selt, cht, j, s, true, some s, sub, bod, bls, false, brk, iss, fi⟩,
            h1, ?_, ?_⟩
          · simp [tuiStep.eq_def, bodyInit, hsel_eq, hj0, hj2]
          · rw [if_neg (by tauto)]
    · -- the chosen scope is a trimmed non-empty custom text: Back restores the text box
      rcases hs with ⟨htrim, hne⟩ | hmem2
      · have hpos : position (fun x => x == s) (config.scopes.getD []) = none :=
          position_not_mem (config.scopes.getD []) s hmem
        have hhead : ¬ (config.scopes.getD []).head? = some s :=
          fun h => hmem (mem_of_head?_some h)
        refine ⟨⟨Step.scope, selt, cht, 0, s, true, some s, sub, bod, bls, false, brk, iss, fi⟩,
          ⟨Step.subject, selt, cht, 0, s, true, some s, sub, bod, bls, false, brk, iss, fi⟩,
          ?_, ?_, ?_⟩
        · simp [tuiStep.eq_def, bodyInit, hpos, hmem]
        · simp [tuiStep.eq_def, bodyInit, htrim, hne]
        · rw [if_neg (by tauto)]
      · exact absurd hmem2 hmem

/-- C7 witness: with the ordinary list entry "api" as chosen scope, the
back-then-confirm round trip returns the same scope. -/
theorem c7_scope_roundtrip_amended_witness :
    ∃ s1 s2, tuiStep cfgDefault stC7w (KeyEvent.char 'b') = TRes.cont s1 ∧
      tuiStep cfgDefault s1 KeyEvent.enter = TRes.cont s2 ∧
      s2.chosen_scope = some "api" := by
  obtain ⟨s1, s2, h1, h2, h3⟩ :=
    c7_scope_roundtrip_amended cfgDefault stC7w rfl rfl (by decide)
      (Or.inr ⟨"api", rfl, Or.inr (by decide)⟩)
  refine ⟨s1, s2, h1, h2, ?_⟩
  rw [h3]
  decide

/-- C8 counterexample: confirm "feat" on TypeSelect, then go Back from
ScopeSelect: the reachable state has `step = TypeSelect` again while
`chosen_type` is still set, refuting the "if and only if" invariant. -/
theorem c8_back_keeps_chosen_type_counterexample :
    Reachable cfgDefault stC8b ∧ stC8b.step = Step.type ∧ stC8b.chosen_type = some "feat" := by
  refine ⟨?_, rfl, rfl⟩
  exact Reachable.step
    (Reachable.step Reachable.init
      (by decide : tuiStep cfgDefault initState KeyEvent.enter = TRes.cont stC8a))
    (by decide : tuiStep cfgDefault stC8a (KeyEvent.char 'b') = TRes.cont stC8b)

/-- C8 (amended): only the forward direction of the invariant holds, and
only when `config.types` is present: in every reachable state whose step
has progressed past TypeSelect, `chosen_type` is set.  The converse fails
because Back from ScopeSelect returns the step to TypeSelect without
clearing `chosen_type` (and with `config.types` absent even the forward
direction would fail, since Confirm then advances without setting it). -/
theorem c8_chosen_type_past_type_select_amended (config : Config) (l : List String)
    (htypes : config.types = some l) :
    ∀ s, Reachable config s → s.step ≠ Step.type → s.chosen_type ≠ none := by
  intro s hr
  induction hr with
  | init => intro h; exact absurd rfl h
  | step hprev htrans ih =>
    rename_i s0 s2 key
    intro hst
    by_cases h0 : s0.step = Step.type
    · obtain ⟨t, ht⟩ := tuiStep_type_cont config htypes s0 s2 key h0 htrans hst
      simp [ht]
    · have hsome := ih h0
      rcases tuiStep_cont_chosen_type config s0 s2 key htrans with heq | ⟨t, ht⟩
      · rw [heq]
        exact hsome
      · simp [ht]

/-- C8 witness: the state reached by confirming "feat" on TypeSelect is past
TypeSelect and its `chosen_type` is set. -/
theorem c8_chosen_type_past_type_select_amended_witness :
    stC8a.step ≠ Step.type ∧ stC8a.chosen_type ≠ none :=
  ⟨by decide,
    c8_chosen_type_past_type_select_amended cfgDefault default_types rfl stC8a
      (Reachable.step Reachable.init
        (by decide : tuiStep cfgDefault initState KeyEvent.enter = TRes.cont stC8a))
      (by decide)⟩

/-- C9 (confirmed): the too-long check compares the UTF-8 byte length
(Rust `String::len`) against the maximum, not the character count: a
40-character subject of two-byte characters (80 bytes) fails the default
72 limit with "currently 80"; and the empty-subject check applies to the
trimmed string, so a whitespace-only subject reports emptiness. -/
theorem c9_too_long_counts_utf8_bytes :
    sMultiByte.length = 40
    ∧ sMultiByte.utf8ByteSize = 80
    ∧ sMultiByte.length ≤ 72
    ∧ validate_subject sMultiByte cfgDefault = some (tooLongMsg 72 80)
    ∧ validate_subject "   " cfgDefault = some "Subject must not be empty." := by
  decide

/-- C10 (confirmed): with a non-empty scope list and an in-bounds cursor,
the ScopeSelect list operations index the list only in bounds — the Confirm
selectability check succeeds and Up/Down produce in-bounds cursors without
hitting the panic branch; with an empty scope list the Confirm handler's
selectability check reads position 0 of the empty slice, and the
out-of-bounds branch is reached (the run crashes on Enter, Enter from the
initial state when the configured scopes are absent). -/
theorem c10_scope_indexing_in_bounds (scopes : List String) (idx : Nat)
    (h : idx < scopes.length) :
    (∃ b, is_scope_selectable scopes idx = some b)
    ∧ (∃ r, next_selectable_scope scopes idx 1 = some r ∧ r < scopes.length)
    ∧ (∃ r, next_selectable_scope scopes idx (-1) = some r ∧ r < scopes.length)
    ∧ (is_scope_selectable ([] : List String) 0 = none
        ∧ runTui cfgNoScopes initState [KeyEvent.enter, KeyEvent.enter]
            = RunOutcome.crashed) := by
  refine ⟨?_, ?_, ?_, by decide, by decide⟩
  · obtain ⟨s, hg⟩ : ∃ s, scopes.get? idx = some s := by
      cases hgs : scopes.get? idx with
      | none => exact absurd (List.get?_eq_none.mp hgs) (by omega)
      | some a => exact ⟨a, rfl⟩
    refine ⟨!(strStartsWith s "─"), ?_⟩
    unfold is_scope_selectable
    rw [hg]
    rfl
  · refine ⟨nextScopeDown idx (scopes.drop (idx + 1)), ?_, ?_⟩
    · unfold next_selectable_scope
      rw [if_pos (by norm_num)]
    · exact nextScopeDown_lt (scopes.drop (idx + 1)) scopes idx rfl h
  · have hup : next_selectable_scope scopes idx (-1) = nextScopeUp scopes idx := by
      unfold next_selectable_scope
      rw [if_neg (by norm_num)]
    obtain ⟨hu1, hu2⟩ := nextScopeUp_spec scopes idx (by omega)
    by_cases hex : ∃ j, j < idx ∧ Selectable scopes j
    · obtain ⟨r, hr1, hr2, _, _⟩ := hu2 hex
      exact ⟨r, by rw [hup]; exact hr1, by omega⟩
    · push_neg at hex
      refine ⟨0, ?_, by omega⟩
      rw [hup]
      exact hu1 (fun j hj => hex j hj)

/-- C10 witness: the empty-list panic branch and the crashing run, obtained
from the theorem applied to the default scope list at cursor 0. -/
theorem c10_scope_indexing_in_bounds_witness :
    is_scope_selectable ([] : List String) 0 = none
    ∧ runTui cfgNoScopes initState [KeyEvent.enter, KeyEvent.enter] = RunOutcome.crashed :=
  (c10_scope_indexing_in_bounds default_scopes 0 (by decide)).2.2.2

end CommiTUI
